import Mathlib

/-!
Shallow embedding of `src/runportal.py` (MousePortal): an infinite-corridor
renderer that recycles a fixed ring of wall/ceiling/floor panels as the
camera moves forward, plus its movement-data CSV logger.

Python floats are modelled as exact rationals (`ℚ`); the Panda3D scene graph
is reduced to the panel poses the corridor logic reads and writes; the file
system seen by the CSV logger is modelled as the target file's contents.
-/

namespace RunPortal

/-- The pose of one corridor panel's `NodePath`, as far as `runportal.py`
uses it: the `setPos` coordinates.  `y` is the travel axis; `x` the lateral
offset; `z` the height.  Rotation (`setHpr`) and the bound texture are write-
only external-collaborator state that the corridor logic never reads back,
so they are not carried. -/
structure Panel where
  x : ℚ
  y : ℚ
  z : ℚ
  deriving DecidableEq

/-- The configuration fields of `conf.json` that the corridor and movement
logic read.  Texture paths, window size, the data-file path and
`camera_height` only flow to external collaborators (loader, window, camera,
logger) and are not modelled. -/
structure Config where
  segment_length : ℚ
  corridor_width : ℚ
  wall_height : ℚ
  num_segments : ℕ
  speed_scaling : ℚ
  deriving DecidableEq

/-- One of the four corridor faces. -/
inductive Face where
  | left
  | right
  | ceiling
  | floor
  deriving DecidableEq

/-- The `Corridor` object: one ordered panel list per face plus the segment
length.  The four `*_recycles` fields are ghost instrumentation (not in the
source): each counts how many pop/append operations `recycle_segment` has
applied to its face's list, incremented exactly where the source pops and
re-appends that face's segment. -/
structure Corridor where
  segment_length : ℚ
  left_segments : List Panel
  right_segments : List Panel
  ceiling_segments : List Panel
  floor_segments : List Panel
  left_recycles : ℕ
  right_recycles : ℕ
  ceiling_recycles : ℕ
  floor_recycles : ℕ
  deriving DecidableEq

/-- `Corridor.build_segments` (src lines 123–171): for `i` in
`range(num_segments)`, with `segment_start = i * segment_length`, create the
four face panels at their `setPos` coordinates.  `apply_texture` and
`setHpr` have no bearing on the panel positions and are not modelled. -/
def Corridor.build (cfg : Config) : Corridor :=
  { segment_length := cfg.segment_length
    left_segments := (List.range cfg.num_segments).map fun i : ℕ =>
      { x := -cfg.corridor_width / 2, y := (i : ℚ) * cfg.segment_length, z := 0 }
    right_segments := (List.range cfg.num_segments).map fun i : ℕ =>
      { x := cfg.corridor_width / 2, y := (i : ℚ) * cfg.segment_length, z := 0 }
    ceiling_segments := (List.range cfg.num_segments).map fun i : ℕ =>
      { x := 0, y := (i : ℚ) * cfg.segment_length, z := cfg.wall_height }
    floor_segments := (List.range cfg.num_segments).map fun i : ℕ =>
      { x := 0, y := (i : ℚ) * cfg.segment_length, z := 0 }
    left_recycles := 0
    right_recycles := 0
    ceiling_recycles := 0
    floor_recycles := 0 }

/-- One face's share of `recycle_segment`: `seg = segments.pop(0)`,
`seg.setY(new_y)`, `segments.append(seg)`.  Python's `pop(0)` raises
`IndexError` on an empty list; that case is unreachable from
`build_segments` with `num_segments ≥ 1` and is modelled as the identity. -/
def recycleFace (new_y : ℚ) : List Panel → List Panel
  | [] => []
  | front :: rest => rest ++ [{ front with y := new_y }]

/-- `Corridor.recycle_segment` (src lines 183–209): compute
`new_y = left_segments[-1].getY() + segment_length` from the LAST left-wall
panel, then pop the front panel of each of the four faces, set its Y to
`new_y` and append it.  Python's `left_segments[-1]` raises `IndexError` on
an empty list; that unreachable case is modelled as the identity.  The ghost
recycle counters each advance by one alongside their face's pop/append. -/
def Corridor.recycle_segment (c : Corridor) : Corridor :=
  match c.left_segments.getLast? with
  | none => c
  | some lastLeft =>
    let new_y : ℚ := lastLeft.y + c.segment_length
    { segment_length := c.segment_length
      left_segments := recycleFace new_y c.left_segments
      right_segments := recycleFace new_y c.right_segments
      ceiling_segments := recycleFace new_y c.ceiling_segments
      floor_segments := recycleFace new_y c.floor_segments
      left_recycles := c.left_recycles + 1
      right_recycles := c.right_recycles + 1
      ceiling_recycles := c.ceiling_recycles + 1
      floor_recycles := c.floor_recycles + 1 }

/-- The panel list of a given face. -/
def Corridor.facePanels (c : Corridor) : Face → List Panel
  | Face.left => c.left_segments
  | Face.right => c.right_segments
  | Face.ceiling => c.ceiling_segments
  | Face.floor => c.floor_segments

/-- The `key_map` dictionary: the `forward` and `backward` flags toggled by
`set_key` on arrow-key press/release events. -/
structure KeyMap where
  forward : Bool
  backward : Bool
  deriving DecidableEq

/-- The velocity resolution of `MousePortal.update` (src lines 292–297):
`+speed_scaling` if `forward` is held (the `elif` makes forward take
priority when both are held), `-speed_scaling` if only `backward` is held,
else `0`. -/
def velocityOf (km : KeyMap) (speed_scaling : ℚ) : ℚ :=
  if km.forward then speed_scaling
  else if km.backward then -speed_scaling
  else 0

/-- The mutable state of the `MousePortal` application object that the
per-frame `update` task reads and writes.  `recycle_events` is ghost
instrumentation counting calls to `corridor.recycle_segment` (one per
iteration of the recycle `while` loop).  The unused `movement_speed`
attribute and the camera pose (a write-only mirror of `player_position`)
are not carried. -/
structure MousePortal where
  player_position : ℚ
  player_velocity : ℚ
  speed_scaling : ℚ
  key_map : KeyMap
  segment_length : ℚ
  corridor : Corridor
  distance_since_recycle : ℚ
  recycle_events : ℕ
  deriving DecidableEq

/-- `MousePortal.__init__`: position `0.0`, velocity `0.0`, no key held,
corridor built from the config, `distance_since_recycle = 0.0`. -/
def MousePortal.init (cfg : Config) : MousePortal :=
  { player_position := 0
    player_velocity := 0
    speed_scaling := cfg.speed_scaling
    key_map := { forward := false, backward := false }
    segment_length := cfg.segment_length
    corridor := Corridor.build cfg
    distance_since_recycle := 0
    recycle_events := 0 }

/-- The `while self.distance_since_recycle >= self.segment_length` loop of
`MousePortal.update` (src lines 307–309): while `L ≤ acc`, call
`recycle_segment`, subtract `L`, and (ghost) count one recycle event.
The loop is expressed with a fuel argument so that it is structurally
recursive; `recycleFuel` below supplies strictly more fuel than the number
of iterations the source loop performs (when `0 < L`, each iteration
decreases `⌊acc / L⌋` by one), so the fuel-0 branch is unreachable and the
embedding computes exactly what the source loop does — see
`recycleLoop_spec`. -/
def recycleLoop : ℕ → ℚ → Corridor → ℚ → ℕ → Corridor × ℚ × ℕ
  | 0, _, c, acc, events => (c, acc, events)
  | fuel + 1, L, c, acc, events =>
    if L ≤ acc then
      recycleLoop fuel L c.recycle_segment (acc - L) (events + 1)
    else
      (c, acc, events)

/-- Fuel bound for `recycleLoop`: one more than the number of iterations the
source loop performs from accumulator `acc` (for `0 ≤ acc` and `0 < L`). -/
def recycleFuel (L acc : ℚ) : ℕ :=
  (⌊acc / L⌋).toNat + 1

/-- One frame of the `update` task (src lines 277–314), with `dt` passed
explicitly in place of the ambient `globalClock.getDt()`: resolve the
velocity from the key map, advance `player_position` by `velocity * dt`,
and, only when `move_distance > 0`, add it to `distance_since_recycle` and
run the recycle loop.  The camera `setPos` and the telemetry `log` call are
external-collaborator writes that read this state and are not carried. -/
def MousePortal.update (s : MousePortal) (dt : ℚ) : MousePortal :=
  let velocity : ℚ := velocityOf s.key_map s.speed_scaling
  let position : ℚ := s.player_position + velocity * dt
  let move_distance : ℚ := velocity * dt
  if 0 < move_distance then
    let acc : ℚ := s.distance_since_recycle + move_distance
    let r := recycleLoop (recycleFuel s.segment_length acc) s.segment_length
      s.corridor acc s.recycle_events
    { s with
      player_velocity := velocity
      player_position := position
      corridor := r.1
      distance_since_recycle := r.2.1
      recycle_events := r.2.2 }
  else
    { s with
      player_velocity := velocity
      player_position := position }

/-- A run of the application: for each tick, deliver the key press/release
events accumulated since the last frame (`set_key` writes to `key_map`) and
then run one `update` frame with that tick's `dt`. -/
def runTicks (s : MousePortal) : List (KeyMap × ℚ) → MousePortal
  | [] => s
  | (km, dt) :: rest => runTicks (MousePortal.update { s with key_map := km } dt) rest

/-- One line of the CSV file written by `DataLogger`: the header row or one
`timestamp, position, velocity` data row. -/
inductive CsvLine where
  | header
  | row (timestamp position velocity : ℚ)
  deriving DecidableEq

/-- The `DataLogger` together with the file it writes; `lines` is the
current content of the target file. -/
structure DataLogger where
  lines : List CsvLine

/-- `DataLogger.__init__` (src lines 58–71): `existing` is the state of the
target file in the file system (`none` = `os.path.isfile` is false).
Opening with mode `'a'` creates the file if missing and otherwise keeps its
content; the header row is written only when the file did not exist. -/
def DataLogger.init (existing : Option (List CsvLine)) : DataLogger :=
  match existing with
  | none => { lines := [CsvLine.header] }
  | some ls => { lines := ls }

/-- `DataLogger.log`: append one `timestamp, position, velocity` data row. -/
def DataLogger.log (d : DataLogger) (timestamp position velocity : ℚ) : DataLogger :=
  { lines := d.lines ++ [CsvLine.row timestamp position velocity] }

/-- A sequence of `DataLogger.log` calls, one per record. -/
def DataLogger.logAll (d : DataLogger) (records : List (ℚ × ℚ × ℚ)) : DataLogger :=
  records.foldl (fun d r => d.log r.1 r.2.1 r.2.2) d

/-- Whether a CSV line is the header row. -/
def isHeader : CsvLine → Bool
  | CsvLine.header => true
  | CsvLine.row _ _ _ => false

/-- The contiguous window of travel-axis positions
`[k·L, (k+1)·L, …, (k+n-1)·L]`. -/
def windowY (L : ℚ) (k n : ℕ) : List ℚ :=
  (List.range' k n).map (fun i : ℕ => (i : ℚ) * L)

/-- The four ghost per-face recycle counters agree. -/
def lockstepCounters (c : Corridor) : Prop :=
  c.left_recycles = c.right_recycles ∧ c.right_recycles = c.ceiling_recycles
    ∧ c.ceiling_recycles = c.floor_recycles

/-- One face's recycle step exactly as claim C2 words it (a second
definition following the spec, for comparison with the source-derived
`recycleFace`/`recycle_segment`): remove the first (lowest-position)
element `front` from the head, set its position to
`position(front) + segment_length`, append it to the tail. -/
def recycleFaceClaim (segment_length : ℚ) : List Panel → List Panel
  | [] => []
  | front :: rest => rest ++ [{ front with y := front.y + segment_length }]

/-- A concrete configuration with two segments of length 10, used to
exercise `recycle_segment` on explicit inputs. -/
def cfgTwo : Config :=
  { segment_length := 10
    corridor_width := 2
    wall_height := 1
    num_segments := 2
    speed_scaling := 5 }

/-- The end-to-end scenario configuration of the spec:
`segment_length = 10`, `num_segments = 5`, `speed_scaling = 1`. -/
def cfgRun : Config :=
  { segment_length := 10
    corridor_width := 2
    wall_height := 3
    num_segments := 5
    speed_scaling := 1 }

/-- Key state: forward arrow held. -/
def kmForward : KeyMap := { forward := true, backward := false }

/-- Key state: backward arrow held. -/
def kmBackward : KeyMap := { forward := false, backward := true }

/-- Key state: both arrows held. -/
def kmBoth : KeyMap := { forward := true, backward := true }

/-- A concrete application state: segment length 2, speed 5, forward held,
empty accumulator — one `dt = 1` tick covers `2.5` segment lengths. -/
def sTrigger : MousePortal :=
  { player_position := 0
    player_velocity := 0
    speed_scaling := 5
    key_map := kmForward
    segment_length := 2
    corridor := Corridor.build cfgTwo
    distance_since_recycle := 0
    recycle_events := 0 }

/-- A concrete application state with both keys held. -/
def sBoth : MousePortal :=
  { sTrigger with key_map := kmBoth }

/-- A concrete application state moving backward with `7` units of
previously accumulated forward distance. -/
def sBackward : MousePortal :=
  { sTrigger with key_map := kmBackward, distance_since_recycle := 7 }

/-! ### Basic facts about one recycle step -/

lemma map_y_recycleFace (new_y : ℚ) (front : Panel) (rest : List Panel) :
    (recycleFace new_y (front :: rest)).map Panel.y = rest.map Panel.y ++ [new_y] := by
  simp [recycleFace]

lemma recycle_segment_of_getLast (c : Corridor) (p : Panel)
    (h : c.left_segments.getLast? = some p) :
    c.recycle_segment =
      { segment_length := c.segment_length
        left_segments := recycleFace (p.y + c.segment_length) c.left_segments
        right_segments := recycleFace (p.y + c.segment_length) c.right_segments
        ceiling_segments := recycleFace (p.y + c.segment_length) c.ceiling_segments
        floor_segments := recycleFace (p.y + c.segment_length) c.floor_segments
        left_recycles := c.left_recycles + 1
        right_recycles := c.right_recycles + 1
        ceiling_recycles := c.ceiling_recycles + 1
        floor_recycles := c.floor_recycles + 1 } := by
  unfold Corridor.recycle_segment
  rw [h]

lemma recycle_segment_segment_length (c : Corridor) :
    c.recycle_segment.segment_length = c.segment_length := by
  unfold Corridor.recycle_segment
  cases h : c.left_segments.getLast? <;> simp

/-! ### The travel-axis positions of a face, after build and after recycles -/

lemma windowY_concat (L : ℚ) (k n : ℕ) :
    windowY L k (n + 1) = windowY L k n ++ [((k + n : ℕ) : ℚ) * L] := by
  unfold windowY
  rw [show List.range' k (n + 1) = List.range' k n ++ [k + 1 * n] from
    @List.range'_concat 1 k n]
  simp

lemma windowY_succ (L : ℚ) (k n : ℕ) :
    windowY L k (n + 1) = ((k : ℚ) * L) :: windowY L (k + 1) n := by
  unfold windowY
  rw [show List.range' k (n + 1) = k :: List.range' (k + 1) n from
    List.range'_succ k n 1]
  simp

lemma length_windowY (L : ℚ) (k n : ℕ) : (windowY L k n).length = n := by
  simp [windowY, List.length_range']

/-- After `build_segments`, every face's Y positions are
`[0·L, 1·L, …, (n-1)·L]`. -/
lemma build_facePanels_map_y (cfg : Config) (f : Face) :
    ((Corridor.build cfg).facePanels f).map Panel.y
      = windowY cfg.segment_length 0 cfg.num_segments := by
  cases f <;>
    simp [Corridor.build, Corridor.facePanels, windowY, List.map_map, Function.comp,
      ← List.range_eq_range']

/-- One recycle step slides every face's window of Y positions forward by
one slot: from `[k·L, …, (k+m)·L]` to `[(k+1)·L, …, (k+1+m)·L]`. -/
lemma recycle_facePanels_map_y (c : Corridor) (L : ℚ) (k m : ℕ)
    (hsl : c.segment_length = L)
    (hys : ∀ f : Face, (c.facePanels f).map Panel.y = windowY L k (m + 1)) :
    ∀ f : Face, (c.recycle_segment.facePanels f).map Panel.y = windowY L (k + 1) (m + 1) := by
  have hlast : ((c.facePanels Face.left).map Panel.y).getLast?
      = some (((k + m : ℕ) : ℚ) * L) := by
    rw [hys Face.left, windowY_concat, List.getLast?_concat]
  rw [List.getLast?_map] at hlast
  obtain ⟨p, hp, hpy⟩ := Option.map_eq_some'.mp hlast
  have hrec := recycle_segment_of_getLast c p hp
  intro f
  -- the face's list is nonempty, of the form `front :: rest`
  have hne : c.facePanels f ≠ [] := by
    intro hnil
    have hlen := congrArg List.length (hys f)
    rw [hnil, length_windowY] at hlen
    simp at hlen
  obtain ⟨front, rest, hface⟩ := List.exists_cons_of_ne_nil hne
  have hrest : rest.map Panel.y = windowY L (k + 1) m := by
    have hf := hys f
    rw [hface, windowY_succ] at hf
    simp only [List.map_cons, List.cons.injEq] at hf
    exact hf.2
  have hgoal : (recycleFace (p.y + c.segment_length) (c.facePanels f)).map Panel.y
      = windowY L (k + 1) (m + 1) := by
    rw [hface, map_y_recycleFace, hrest, hpy, hsl, windowY_concat]
    congr 2
    push_cast
    ring
  cases f <;>
    simpa [hrec, Corridor.facePanels] using hgoal

/-- After `build_segments` and `k` calls of `recycle_segment`, every face's
Y positions are `[k·L, …, (k+m)·L]` (where `num_segments = m + 1`), and the
segment length is unchanged. -/
lemma iterate_recycle_facePanels_map_y (cfg : Config) (m : ℕ)
    (hn : cfg.num_segments = m + 1) (k : ℕ) :
    (Corridor.recycle_segment^[k] (Corridor.build cfg)).segment_length = cfg.segment_length
    ∧ ∀ f : Face, ((Corridor.recycle_segment^[k] (Corridor.build cfg)).facePanels f).map Panel.y
        = windowY cfg.segment_length k (m + 1) := by
  induction k with
  | zero =>
    refine ⟨rfl, fun f => ?_⟩
    simpa [hn] using build_facePanels_map_y cfg f
  | succ k ih =>
    rw [Function.iterate_succ_apply']
    exact ⟨(recycle_segment_segment_length _).trans ih.1,
      recycle_facePanels_map_y _ _ k m ih.1 ih.2⟩

/-! ### The recycle while-loop -/

/-- With `0 < L` and `0 ≤ acc`, and any fuel beyond the source loop's
iteration count, the fuelled loop computes exactly what the source's
`while acc >= L` loop does: `⌊acc / L⌋` recycles, each subtracting `L`. -/
lemma recycleLoop_spec (L : ℚ) (hL : 0 < L) :
    ∀ (fuel : ℕ) (acc : ℚ) (c : Corridor) (events : ℕ),
      0 ≤ acc → (⌊acc / L⌋).toNat < fuel →
      recycleLoop fuel L c acc events
        = (Corridor.recycle_segment^[(⌊acc / L⌋).toNat] c,
           acc - ((⌊acc / L⌋).toNat : ℚ) * L,
           events + (⌊acc / L⌋).toNat) := by
  intro fuel
  induction fuel with
  | zero =>
    intro acc c events _ hfuel
    omega
  | succ fuel ih =>
    intro acc c events hacc hfuel
    by_cases hle : L ≤ acc
    · have hsub : 0 ≤ acc - L := sub_nonneg.mpr hle
      have hdiv : (acc - L) / L = acc / L - 1 := by
        rw [sub_div, div_self hL.ne']
      have hfloor : ⌊acc / L⌋ = ⌊(acc - L) / L⌋ + 1 := by
        rw [hdiv, show (1 : ℚ) = ((1 : ℤ) : ℚ) by norm_num, Int.floor_sub_int]
        ring
      have hnn : 0 ≤ ⌊(acc - L) / L⌋ := Int.floor_nonneg.mpr (div_nonneg hsub hL.le)
      have htn : (⌊acc / L⌋).toNat = (⌊(acc - L) / L⌋).toNat + 1 := by omega
      have hstep : recycleLoop (fuel + 1) L c acc events
          = recycleLoop fuel L c.recycle_segment (acc - L) (events + 1) := by
        simp only [recycleLoop]
        rw [if_pos hle]
      rw [hstep, ih (acc - L) c.recycle_segment (events + 1) hsub (by omega), htn]
      simp only [Prod.mk.injEq]
      refine ⟨(Function.iterate_succ_apply _ _ _).symm, ?_, by omega⟩
      push_cast
      ring
    · have hlt : acc < L := not_le.mp hle
      have hfl : ⌊acc / L⌋ = 0 :=
        Int.floor_eq_zero_iff.mpr ⟨div_nonneg hacc hL.le, (div_lt_one hL).mpr hlt⟩
      simp only [recycleLoop]
      rw [if_neg hle, hfl]
      simp

/-- The loop never drives the accumulator negative: it only subtracts `L`
when `L ≤ acc`. -/
lemma recycleLoop_acc_nonneg :
    ∀ (fuel : ℕ) (L : ℚ) (c : Corridor) (acc : ℚ) (events : ℕ),
      0 ≤ acc → 0 ≤ (recycleLoop fuel L c acc events).2.1 := by
  intro fuel
  induction fuel with
  | zero =>
    intro L c acc events hacc
    simpa [recycleLoop] using hacc
  | succ fuel ih =>
    intro L c acc events hacc
    simp only [recycleLoop]
    by_cases hle : L ≤ acc
    · rw [if_pos hle]
      exact ih L c.recycle_segment (acc - L) (events + 1) (sub_nonneg.mpr hle)
    · rw [if_neg hle]
      exact hacc

/-! ### Per-frame update lemmas -/

lemma update_player_velocity (s : MousePortal) (dt : ℚ) :
    (s.update dt).player_velocity = velocityOf s.key_map s.speed_scaling := by
  simp only [MousePortal.update]
  split <;> rfl

lemma update_player_position (s : MousePortal) (dt : ℚ) :
    (s.update dt).player_position
      = s.player_position + velocityOf s.key_map s.speed_scaling * dt := by
  simp only [MousePortal.update]
  split <;> rfl

lemma update_speed_scaling (s : MousePortal) (dt : ℚ) :
    (s.update dt).speed_scaling = s.speed_scaling := by
  simp only [MousePortal.update]
  split <;> rfl

lemma update_segment_length (s : MousePortal) (dt : ℚ) :
    (s.update dt).segment_length = s.segment_length := by
  simp only [MousePortal.update]
  split <;> rfl

/-- A tick with non-positive `move_distance` changes only position and
velocity: the accumulator, the corridor and the (ghost) event count are
untouched. -/
lemma update_of_nonpos (s : MousePortal) (dt : ℚ)
    (h : velocityOf s.key_map s.speed_scaling * dt ≤ 0) :
    s.update dt =
      { s with
        player_velocity := velocityOf s.key_map s.speed_scaling
        player_position := s.player_position + velocityOf s.key_map s.speed_scaling * dt } := by
  simp only [MousePortal.update]
  rw [if_neg (not_lt.mpr h)]

/-- A tick with positive `move_distance` `d` (from accumulator `a ≥ 0` and
segment length `L > 0`) recycles exactly `⌊(a+d)/L⌋` times and leaves the
accumulator at `(a+d) - ⌊(a+d)/L⌋·L`. -/
lemma update_of_pos (s : MousePortal) (dt : ℚ)
    (hd : 0 < velocityOf s.key_map s.speed_scaling * dt)
    (ha : 0 ≤ s.distance_since_recycle) (hL : 0 < s.segment_length) :
    (s.update dt).corridor
      = Corridor.recycle_segment^[(⌊(s.distance_since_recycle
          + velocityOf s.key_map s.speed_scaling * dt) / s.segment_length⌋).toNat] s.corridor
    ∧ (s.update dt).distance_since_recycle
      = (s.distance_since_recycle + velocityOf s.key_map s.speed_scaling * dt)
        - (((⌊(s.distance_since_recycle
            + velocityOf s.key_map s.speed_scaling * dt) / s.segment_length⌋).toNat : ℚ))
          * s.segment_length
    ∧ (s.update dt).recycle_events
      = s.recycle_events + (⌊(s.distance_since_recycle
          + velocityOf s.key_map s.speed_scaling * dt) / s.segment_length⌋).toNat := by
  have hacc : 0 ≤ s.distance_since_recycle + velocityOf s.key_map s.speed_scaling * dt :=
    add_nonneg ha hd.le
  have hspec := recycleLoop_spec s.segment_length hL
    (recycleFuel s.segment_length
      (s.distance_since_recycle + velocityOf s.key_map s.speed_scaling * dt))
    (s.distance_since_recycle + velocityOf s.key_map s.speed_scaling * dt)
    s.corridor s.recycle_events hacc (by simp [recycleFuel])
  simp only [MousePortal.update]
  rw [if_pos hd, hspec]
  exact ⟨rfl, rfl, rfl⟩

/-! ### Runs of ticks -/

lemma runTicks_append (l1 l2 : List (KeyMap × ℚ)) :
    ∀ s : MousePortal, runTicks s (l1 ++ l2) = runTicks (runTicks s l1) l2 := by
  induction l1 with
  | nil => intro s; rfl
  | cons p rest ih =>
    intro s
    obtain ⟨km, dt⟩ := p
    simp only [List.cons_append, runTicks]
    exact ih _

/-! ### The four ghost recycle counters stay in lockstep -/

lemma lockstepCounters_build (cfg : Config) : lockstepCounters (Corridor.build cfg) :=
  ⟨rfl, rfl, rfl⟩

lemma lockstepCounters_recycle (c : Corridor) (h : lockstepCounters c) :
    lockstepCounters c.recycle_segment := by
  unfold Corridor.recycle_segment
  cases hg : c.left_segments.getLast?
  · simpa using h
  · obtain ⟨h1, h2, h3⟩ := h
    exact ⟨by simpa using h1, by simpa using h2, by simpa using h3⟩

lemma lockstepCounters_iterate (k : ℕ) (c : Corridor) (h : lockstepCounters c) :
    lockstepCounters (Corridor.recycle_segment^[k] c) := by
  induction k with
  | zero => simpa using h
  | succ k ih =>
    rw [Function.iterate_succ_apply']
    exact lockstepCounters_recycle _ ih

lemma lockstepCounters_recycleLoop :
    ∀ (fuel : ℕ) (L : ℚ) (c : Corridor) (acc : ℚ) (events : ℕ),
      lockstepCounters c → lockstepCounters (recycleLoop fuel L c acc events).1 := by
  intro fuel
  induction fuel with
  | zero =>
    intro L c acc events h
    simpa [recycleLoop] using h
  | succ fuel ih =>
    intro L c acc events h
    simp only [recycleLoop]
    by_cases hle : L ≤ acc
    · rw [if_pos hle]
      exact ih L c.recycle_segment (acc - L) (events + 1) (lockstepCounters_recycle c h)
    · rw [if_neg hle]
      exact h

lemma lockstepCounters_update (s : MousePortal) (dt : ℚ)
    (h : lockstepCounters s.corridor) : lockstepCounters (s.update dt).corridor := by
  simp only [MousePortal.update]
  split
  · exact lockstepCounters_recycleLoop _ _ _ _ _ h
  · exact h

lemma lockstepCounters_runTicks (ticks : List (KeyMap × ℚ)) :
    ∀ s : MousePortal, lockstepCounters s.corridor →
      lockstepCounters (runTicks s ticks).corridor := by
  induction ticks with
  | nil => intro s h; exact h
  | cons p rest ih =>
    intro s h
    obtain ⟨km, dt⟩ := p
    simp only [runTicks]
    exact ih _ (lockstepCounters_update _ dt h)

/-! ### The accumulator never goes negative -/

lemma update_acc_nonneg (s : MousePortal) (dt : ℚ)
    (h : 0 ≤ s.distance_since_recycle) : 0 ≤ (s.update dt).distance_since_recycle := by
  simp only [MousePortal.update]
  split
  · next hpos => exact recycleLoop_acc_nonneg _ _ _ _ _ (add_nonneg h hpos.le)
  · exact h

lemma runTicks_acc_nonneg (ticks : List (KeyMap × ℚ)) :
    ∀ s : MousePortal, 0 ≤ s.distance_since_recycle →
      0 ≤ (runTicks s ticks).distance_since_recycle := by
  induction ticks with
  | nil => intro s h; exact h
  | cons p rest ih =>
    intro s h
    obtain ⟨km, dt⟩ := p
    simp only [runTicks]
    exact ih _ (update_acc_nonneg _ dt h)

/-! ### Telemetry sink -/

lemma logAll_lines (records : List (ℚ × ℚ × ℚ)) :
    ∀ d : DataLogger, (d.logAll records).lines
      = d.lines ++ records.map (fun r => CsvLine.row r.1 r.2.1 r.2.2) := by
  induction records with
  | nil => intro d; simp [DataLogger.logAll]
  | cons r rest ih =>
    intro d
    simp only [DataLogger.logAll, List.foldl_cons] at ih ⊢
    rw [ih (d.log r.1 r.2.1 r.2.2)]
    simp [DataLogger.log]

/-! ### The end-to-end forward run of the spec scenario -/

/-- One forward tick with `dt = 1`, `speed_scaling = 1`, `segment_length = 10`
from accumulator `m`: position advances by `1`, the accumulator becomes
`(m+1) % 10` and `(m+1) / 10` recycle events fire. -/
lemma tick_forward_unit (s : MousePortal) (m : ℕ)
    (hkm : s.key_map = kmForward) (hsp : s.speed_scaling = 1)
    (hsl : s.segment_length = 10) (hacc : s.distance_since_recycle = (m : ℚ)) :
    (s.update 1).player_position = s.player_position + 1
    ∧ (s.update 1).distance_since_recycle = (((m + 1) % 10 : ℕ) : ℚ)
    ∧ (s.update 1).recycle_events = s.recycle_events + (m + 1) / 10
    ∧ (s.update 1).speed_scaling = 1
    ∧ (s.update 1).segment_length = 10 := by
  have hv : velocityOf s.key_map s.speed_scaling = 1 := by
    rw [hkm, hsp]
    rfl
  have hd : 0 < velocityOf s.key_map s.speed_scaling * 1 := by
    rw [hv]
    norm_num
  have ha : 0 ≤ s.distance_since_recycle := by
    rw [hacc]
    positivity
  have hL : 0 < s.segment_length := by
    rw [hsl]
    norm_num
  obtain ⟨-, hacc', hev⟩ := update_of_pos s 1 hd ha hL
  have hfloor : ⌊(s.distance_since_recycle + velocityOf s.key_map s.speed_scaling * 1)
      / s.segment_length⌋ = (((m + 1) / 10 : ℕ) : ℤ) := by
    rw [hacc, hv, hsl, mul_one,
      show ((m : ℚ) + 1) = ((m + 1 : ℕ) : ℚ) by push_cast; ring,
      show (10 : ℚ) = ((10 : ℕ) : ℚ) by norm_num]
    exact Rat.floor_natCast_div_natCast (m + 1) 10
  have hmod := Nat.div_add_mod (m + 1) 10
  refine ⟨?_, ?_, ?_, update_speed_scaling s 1 ▸ hsp, update_segment_length s 1 ▸ hsl⟩
  · rw [update_player_position, hv, mul_one]
  · have hmodQ : (10 : ℚ) * (((m + 1) / 10 : ℕ) : ℚ) + (((m + 1) % 10 : ℕ) : ℚ)
        = (m : ℚ) + 1 := by
      exact_mod_cast congrArg (fun n : ℕ => (n : ℚ)) hmod
    rw [hacc', hfloor, hacc, hv, hsl, mul_one, Int.toNat_natCast]
    linarith [hmodQ]
  · rw [hev, hfloor, Int.toNat_natCast]

/-- After `t` forward unit ticks from `MousePortal.init cfgRun`: position
`t`, accumulator `t % 10`, `t / 10` recycle events in total. -/
lemma runTicks_forward_unit (t : ℕ) :
    (runTicks (MousePortal.init cfgRun) (List.replicate t (kmForward, 1))).player_position = (t : ℚ)
    ∧ (runTicks (MousePortal.init cfgRun)
        (List.replicate t (kmForward, 1))).distance_since_recycle = ((t % 10 : ℕ) : ℚ)
    ∧ (runTicks (MousePortal.init cfgRun)
        (List.replicate t (kmForward, 1))).recycle_events = t / 10
    ∧ (runTicks (MousePortal.init cfgRun)
        (List.replicate t (kmForward, 1))).speed_scaling = 1
    ∧ (runTicks (MousePortal.init cfgRun)
        (List.replicate t (kmForward, 1))).segment_length = 10 := by
  induction t with
  | zero =>
    exact ⟨rfl, rfl, rfl, rfl, rfl⟩
  | succ t ih =>
    obtain ⟨hp, hacc, hev, hsp, hsl⟩ := ih
    rw [List.replicate_succ', runTicks_append]
    simp only [runTicks]
    have step := tick_forward_unit
      { runTicks (MousePortal.init cfgRun) (List.replicate t (kmForward, 1)) with
        key_map := kmForward } (t % 10) rfl hsp hsl hacc
    obtain ⟨sp, sacc, sev, ssp, ssl⟩ := step
    refine ⟨?_, ?_, ?_, ssp, ssl⟩
    · rw [sp, hp]
      push_cast
      ring
    · rw [sacc]
      congr 1
      omega
    · rw [sev, hev]
      omega

/-! ### Concrete evaluations of the two-segment corridor -/

lemma build_cfgTwo_left :
    (Corridor.build cfgTwo).left_segments = [⟨-1, 0, 0⟩, ⟨-1, 10, 0⟩] := by
  have hr : List.range 2 = [0, 1] := rfl
  simp only [Corridor.build, cfgTwo, hr, List.map_cons, List.map_nil]
  norm_num [Panel.mk.injEq]

lemma recycle_build_cfgTwo_left :
    (Corridor.build cfgTwo).recycle_segment.left_segments = [⟨-1, 10, 0⟩, ⟨-1, 20, 0⟩] := by
  have hlast : (Corridor.build cfgTwo).left_segments.getLast? = some ⟨-1, 10, 0⟩ := by
    rw [build_cfgTwo_left]
    rfl
  rw [recycle_segment_of_getLast _ _ hlast]
  show recycleFace _ (Corridor.build cfgTwo).left_segments = _
  rw [build_cfgTwo_left]
  show [(⟨-1, 10, 0⟩ : Panel)] ++ [⟨-1, (10 : ℚ) + (Corridor.build cfgTwo).segment_length, 0⟩] = _
  rw [show (Corridor.build cfgTwo).segment_length = (10 : ℚ) from rfl]
  norm_num [Panel.mk.injEq]

/-! ### The claims -/

/-- C1: for every `num_segments ≥ 1` and every face, after `build_segments`
followed by any number `k` of `recycle_segment` calls, the face's list of
panel travel-axis positions equals the contiguous window
`[(m+0)·L, (m+1)·L, …, (m+num_segments-1)·L]` for some offset `m` (namely
`m = k`), and that list is sorted strictly ascending — a contiguous window
with neither gap nor overlap. -/
theorem claim1_segment_ring_window (cfg : Config) (k : ℕ) (f : Face)
    (hn : 1 ≤ cfg.num_segments) (hL : 0 < cfg.segment_length) :
    ∃ m : ℕ,
      ((Corridor.recycle_segment^[k] (Corridor.build cfg)).facePanels f).map Panel.y
        = (List.range cfg.num_segments).map
            (fun i : ℕ => ((m : ℚ) + (i : ℚ)) * cfg.segment_length)
      ∧ List.Sorted (· < ·)
          (((Corridor.recycle_segment^[k] (Corridor.build cfg)).facePanels f).map Panel.y) := by
  obtain ⟨m1, hm1⟩ : ∃ m1, cfg.num_segments = m1 + 1 := ⟨cfg.num_segments - 1, by omega⟩
  obtain ⟨-, hys⟩ := iterate_recycle_facePanels_map_y cfg m1 hm1 k
  refine ⟨k, ?_, ?_⟩
  · rw [hys f, ← hm1, windowY, List.range'_eq_map_range, List.map_map]
    refine List.map_congr_left ?_
    intro i _
    simp only [Function.comp_apply]
    push_cast
    ring
  · rw [hys f]
    unfold windowY
    refine List.Pairwise.map _ ?_ (List.pairwise_lt_range' k (m1 + 1))
    intro a b hab
    exact mul_lt_mul_of_pos_right (by exact_mod_cast hab) hL

/-- Witness for C1: the configuration `cfgRun` (five segments of length
10), one recycle, left wall. -/
theorem claim1_witness :
    ∃ m : ℕ,
      ((Corridor.recycle_segment^[1] (Corridor.build cfgRun)).facePanels Face.left).map Panel.y
        = (List.range cfgRun.num_segments).map
            (fun i : ℕ => ((m : ℚ) + (i : ℚ)) * cfgRun.segment_length)
      ∧ List.Sorted (· < ·)
          (((Corridor.recycle_segment^[1] (Corridor.build cfgRun)).facePanels Face.left).map Panel.y) :=
  claim1_segment_ring_window cfgRun 1 Face.left (by norm_num [cfgRun]) (by norm_num [cfgRun])

/-- C2 counterexample: on the two-segment corridor `cfgTwo` the source's
`recycle_segment` repositions the recycled left panel to Y = 20, which is
`position(last) + segment_length`; the claim's rule
(`position(front) + segment_length`) would put it at Y = 10. -/
theorem claim2_counterexample :
    (Corridor.build cfgTwo).recycle_segment.left_segments
      ≠ recycleFaceClaim cfgTwo.segment_length (Corridor.build cfgTwo).left_segments := by
  rw [recycle_build_cfgTwo_left, build_cfgTwo_left]
  show [(⟨-1, 10, 0⟩ : Panel), ⟨-1, 20, 0⟩]
    ≠ [(⟨-1, 10, 0⟩ : Panel)] ++ [⟨-1, (0 : ℚ) + cfgTwo.segment_length, 0⟩]
  norm_num [Panel.mk.injEq, cfgTwo]

/-- C2 (amended): one recycle event removes the first (lowest-position)
element `front` from each face's head and appends it to the tail, but the
new position is `position(last) + segment_length` where `last` is the final
(highest-position) panel of the LEFT wall — not
`position(front) + segment_length`. -/
theorem claim2_recycle_moves_front_to_tail (c : Corridor) (f : Face)
    (p front : Panel) (rest : List Panel)
    (hlast : c.left_segments.getLast? = some p)
    (hface : c.facePanels f = front :: rest) :
    c.recycle_segment.facePanels f
      = rest ++ [{ front with y := p.y + c.segment_length }] := by
  rw [recycle_segment_of_getLast c p hlast]
  cases f <;> simp only [Corridor.facePanels] at hface ⊢ <;> rw [hface] <;> rfl

/-- Witness for the amended C2 on the two-segment corridor: the front left
panel (Y = 0) is removed, repositioned to `10 + 10 = 20` (the left wall's
last panel plus one segment length) and appended. -/
theorem claim2_witness :
    (Corridor.build cfgTwo).recycle_segment.facePanels Face.left
      = [(⟨-1, 10, 0⟩ : Panel), ⟨-1, 20, 0⟩] := by
  have hlast : (Corridor.build cfgTwo).left_segments.getLast? = some ⟨-1, 10, 0⟩ := by
    rw [build_cfgTwo_left]
    rfl
  have hface : (Corridor.build cfgTwo).facePanels Face.left
      = (⟨-1, 0, 0⟩ : Panel) :: [⟨-1, 10, 0⟩] := by
    show (Corridor.build cfgTwo).left_segments = _
    rw [build_cfgTwo_left]
  rw [claim2_recycle_moves_front_to_tail (Corridor.build cfgTwo) Face.left
    ⟨-1, 10, 0⟩ ⟨-1, 0, 0⟩ [⟨-1, 10, 0⟩] hlast hface]
  show [(⟨-1, 10, 0⟩ : Panel), ⟨-1, (10 : ℚ) + (Corridor.build cfgTwo).segment_length, 0⟩] = _
  rw [show (Corridor.build cfgTwo).segment_length = (10 : ℚ) from rfl]
  norm_num [Panel.mk.injEq]

/-- C3: a single tick with previously accumulated forward distance
`a ≥ 0` and positive move distance `d` fires exactly `⌊(a+d)/L⌋` recycle
events and leaves the accumulator at `(a+d) − ⌊(a+d)/L⌋·L`, that is,
`(a+d) mod L`. -/
theorem claim3_trigger_floor_count (s : MousePortal) (dt : ℚ)
    (ha : 0 ≤ s.distance_since_recycle) (hL : 0 < s.segment_length)
    (hd : 0 < velocityOf s.key_map s.speed_scaling * dt) :
    (s.update dt).recycle_events
      = s.recycle_events
        + (⌊(s.distance_since_recycle + velocityOf s.key_map s.speed_scaling * dt)
            / s.segment_length⌋).toNat
    ∧ (s.update dt).distance_since_recycle
      = (s.distance_since_recycle + velocityOf s.key_map s.speed_scaling * dt)
        - ((⌊(s.distance_since_recycle + velocityOf s.key_map s.speed_scaling * dt)
            / s.segment_length⌋).toNat : ℚ) * s.segment_length := by
  obtain ⟨-, h2, h3⟩ := update_of_pos s dt hd ha hL
  exact ⟨h3, h2⟩

/-- Witness for C3, the spec's own instance: from accumulator `0`, one tick
covering `2.5` segment lengths (`d = 5`, `L = 2`) fires exactly 2 recycle
events and leaves the accumulator at `0.5` segment lengths (`1`). -/
theorem claim3_witness :
    (sTrigger.update 1).recycle_events = 2
    ∧ (sTrigger.update 1).distance_since_recycle = 1 := by
  have ha : (0 : ℚ) ≤ sTrigger.distance_since_recycle := by norm_num [sTrigger]
  have hL : (0 : ℚ) < sTrigger.segment_length := by norm_num [sTrigger]
  have hd : 0 < velocityOf sTrigger.key_map sTrigger.speed_scaling * 1 := by
    norm_num [sTrigger, velocityOf, kmForward]
  obtain ⟨h1, h2⟩ := claim3_trigger_floor_count sTrigger 1 ha hL hd
  constructor
  · rw [h1]
    norm_num [sTrigger, velocityOf, kmForward]
    rfl
  · rw [h2]
    norm_num [sTrigger, velocityOf, kmForward]
    rw [show Int.toNat 2 = 2 from rfl]
    norm_num

/-- C4: with `segment_length = 10` and `num_segments = 5`, 37 consecutive
forward ticks of 1 unit each (`dt = 1`, `speed_scaling = 1`) from the
initial state yield exactly 3 recycle events in total, final accumulator
`7`, final position `37`. -/
theorem claim4_end_to_end :
    (runTicks (MousePortal.init cfgRun) (List.replicate 37 (kmForward, 1))).recycle_events = 3
    ∧ (runTicks (MousePortal.init cfgRun)
        (List.replicate 37 (kmForward, 1))).distance_since_recycle = 7
    ∧ (runTicks (MousePortal.init cfgRun)
        (List.replicate 37 (kmForward, 1))).player_position = 37 := by
  obtain ⟨hp, hacc, hev, -, -⟩ := runTicks_forward_unit 37
  refine ⟨?_, ?_, ?_⟩
  · rw [hev]
  · rw [hacc]
    norm_num
  · rw [hp]
    norm_num

/-- C5: each tick resolves the velocity as `+speed_scaling` when the
forward flag is set (regardless of the backward flag), `-speed_scaling`
when only the backward flag is set, and `0` when neither is set; the
position then advances by `velocity · dt` unconditionally. -/
theorem claim5_velocity_policy (s : MousePortal) (dt : ℚ) :
    (s.key_map.forward = true → (s.update dt).player_velocity = s.speed_scaling)
    ∧ (s.key_map.forward = false → s.key_map.backward = true →
        (s.update dt).player_velocity = -s.speed_scaling)
    ∧ (s.key_map.forward = false → s.key_map.backward = false →
        (s.update dt).player_velocity = 0)
    ∧ (s.update dt).player_position
        = s.player_position + (s.update dt).player_velocity * dt := by
  refine ⟨?_, ?_, ?_, ?_⟩
  · intro hf
    rw [update_player_velocity]
    simp [velocityOf, hf]
  · intro hf hb
    rw [update_player_velocity]
    simp [velocityOf, hf, hb]
  · intro hf hb
    rw [update_player_velocity]
    simp [velocityOf, hf, hb]
  · rw [update_player_position, update_player_velocity]

/-- Witness for C5 at the spec's instance: with both keys held, forward
takes priority and velocity resolves to `+speed_scaling = 5`. -/
theorem claim5_witness :
    (sBoth.update 1).player_velocity = 5 ∧ (sBoth.update 1).player_position = 5 := by
  obtain ⟨h1, -, -, h4⟩ := claim5_velocity_policy sBoth 1
  have hv : (sBoth.update 1).player_velocity = 5 := by
    rw [h1 rfl]
    rfl
  refine ⟨hv, ?_⟩
  rw [h4, hv]
  norm_num [sBoth, sTrigger]

/-- C6: a tick whose move distance is zero or negative fires no recycle
event and leaves the recycle accumulator (and the corridor) exactly
unchanged, regardless of previously accumulated forward distance. -/
theorem claim6_backward_frozen (s : MousePortal) (dt : ℚ)
    (h : velocityOf s.key_map s.speed_scaling * dt ≤ 0) :
    (s.update dt).distance_since_recycle = s.distance_since_recycle
    ∧ (s.update dt).recycle_events = s.recycle_events
    ∧ (s.update dt).corridor = s.corridor := by
  rw [update_of_nonpos s dt h]
  exact ⟨rfl, rfl, rfl⟩

/-- Witness for C6: a backward tick from `7` accumulated units leaves the
accumulator at `7`, the event count at `0` and the corridor untouched. -/
theorem claim6_witness :
    (sBackward.update 1).distance_since_recycle = 7
    ∧ (sBackward.update 1).recycle_events = 0
    ∧ (sBackward.update 1).corridor = sBackward.corridor := by
  have h : velocityOf sBackward.key_map sBackward.speed_scaling * 1 ≤ 0 := by
    norm_num [sBackward, sTrigger, velocityOf, kmBackward]
  obtain ⟨h1, h2, h3⟩ := claim6_backward_frozen sBackward 1 h
  exact ⟨h1, h2, h3⟩

/-- C7: for `num_segments ≥ 1` and any sequence of ticks, after every
recycle event the four faces have had exactly the same total number of
recycle operations applied (the ghost per-face counters agree). -/
theorem claim7_faces_lockstep (cfg : Config) (ticks : List (KeyMap × ℚ)) (k : ℕ)
    (hn : 1 ≤ cfg.num_segments) :
    lockstepCounters
      (Corridor.recycle_segment^[k] ((runTicks (MousePortal.init cfg) ticks).corridor)) :=
  lockstepCounters_iterate k _
    (lockstepCounters_runTicks ticks _ (lockstepCounters_build cfg))

/-- Witness for C7: two further recycle events after an empty run on
`cfgRun`. -/
theorem claim7_witness :
    lockstepCounters
      (Corridor.recycle_segment^[2] ((runTicks (MousePortal.init cfgRun) []).corridor)) :=
  claim7_faces_lockstep cfgRun [] 2 (by norm_num [cfgRun])

/-- C8: the recycle accumulator starts at `0` and never goes negative over
any sequence of ticks with any key inputs and nonnegative `dt`s. -/
theorem claim8_accumulator_nonneg (cfg : Config) (ticks : List (KeyMap × ℚ))
    (hL : 0 < cfg.segment_length) (hdt : ∀ p ∈ ticks, 0 ≤ p.2) :
    0 ≤ (runTicks (MousePortal.init cfg) ticks).distance_since_recycle :=
  runTicks_acc_nonneg ticks _ le_rfl

/-- Witness for C8: one forward unit tick on `cfgRun`. -/
theorem claim8_witness :
    0 ≤ (runTicks (MousePortal.init cfgRun) [(kmForward, 1)]).distance_since_recycle :=
  claim8_accumulator_nonneg cfgRun [(kmForward, 1)] (by norm_num [cfgRun])
    (by
      intro p hp
      simp only [List.mem_singleton] at hp
      rw [hp]
      norm_num)

/-- C9: opening the telemetry sink on a missing target writes the header
row exactly once, before any data rows; writing `N` records yields 1
header line plus `N` data lines; re-opening the existing target for append
and writing one more record adds no duplicate header. -/
theorem claim9_header_once (records : List (ℚ × ℚ × ℚ)) (t p v : ℚ) :
    ((DataLogger.init none).logAll records).lines.countP isHeader = 1
    ∧ ((DataLogger.init none).logAll records).lines.length = records.length + 1
    ∧ ((DataLogger.init none).logAll records).lines.head? = some CsvLine.header
    ∧ ((DataLogger.init
          (some ((DataLogger.init none).logAll records).lines)).log t p v).lines.countP
        isHeader = 1
    ∧ ((DataLogger.init
          (some ((DataLogger.init none).logAll records).lines)).log t p v).lines.length
        = records.length + 2 := by
  have hl := logAll_lines records (DataLogger.init none)
  have hrow : (records.map (fun r => CsvLine.row r.1 r.2.1 r.2.2)).countP isHeader = 0 := by
    rw [List.countP_eq_zero]
    intro a ha
    obtain ⟨r, -, rfl⟩ := List.mem_map.mp ha
    simp [isHeader]
  have hinit : (DataLogger.init none).lines = [CsvLine.header] := rfl
  refine ⟨?_, ?_, ?_, ?_, ?_⟩
  · rw [hl, hinit, List.countP_append, hrow]
    simp [List.countP_cons, isHeader]
  · rw [hl, hinit]
    simp
  · rw [hl, hinit]
    rfl
  · show (((DataLogger.init none).logAll records).lines
        ++ [CsvLine.row t p v]).countP isHeader = 1
    rw [List.countP_append, hl, hinit, List.countP_append, hrow]
    simp [List.countP_cons, List.countP_nil, isHeader]
  · show (((DataLogger.init none).logAll records).lines
        ++ [CsvLine.row t p v]).length = records.length + 2
    rw [List.length_append, hl, hinit]
    simp

/-- C10: after build and any number of recycle calls, the `i`-th panels of
the left wall, right wall, ceiling and floor all have exactly the same
travel-axis (Y) position. -/
theorem claim10_cross_face_alignment (cfg : Config) (k i : ℕ)
    (hn : 1 ≤ cfg.num_segments) (hi : i < cfg.num_segments) :
    ∃ yv : ℚ,
      ((Corridor.recycle_segment^[k] (Corridor.build cfg)).left_segments[i]?).map Panel.y
        = some yv
      ∧ ((Corridor.recycle_segment^[k] (Corridor.build cfg)).right_segments[i]?).map Panel.y
        = some yv
      ∧ ((Corridor.recycle_segment^[k] (Corridor.build cfg)).ceiling_segments[i]?).map Panel.y
        = some yv
      ∧ ((Corridor.recycle_segment^[k] (Corridor.build cfg)).floor_segments[i]?).map Panel.y
        = some yv := by
  obtain ⟨m1, hm1⟩ : ∃ m1, cfg.num_segments = m1 + 1 := ⟨cfg.num_segments - 1, by omega⟩
  obtain ⟨-, hys⟩ := iterate_recycle_facePanels_map_y cfg m1 hm1 k
  have key : ∀ f : Face,
      ((Corridor.recycle_segment^[k] (Corridor.build cfg)).facePanels f)[i]?.map Panel.y
        = some (((k + i : ℕ) : ℚ) * cfg.segment_length) := by
    intro f
    rw [← List.getElem?_map, hys f, windowY, List.getElem?_map,
      List.getElem?_range' k 1 (show i < m1 + 1 by omega)]
    simp
  exact ⟨((k + i : ℕ) : ℚ) * cfg.segment_length,
    key Face.left, key Face.right, key Face.ceiling, key Face.floor⟩

/-- Witness for C10: `cfgRun`, one recycle, index 0. -/
theorem claim10_witness :
    ∃ yv : ℚ,
      ((Corridor.recycle_segment^[1] (Corridor.build cfgRun)).left_segments[0]?).map Panel.y
        = some yv
      ∧ ((Corridor.recycle_segment^[1] (Corridor.build cfgRun)).right_segments[0]?).map Panel.y
        = some yv
      ∧ ((Corridor.recycle_segment^[1] (Corridor.build cfgRun)).ceiling_segments[0]?).map Panel.y
        = some yv
      ∧ ((Corridor.recycle_segment^[1] (Corridor.build cfgRun)).floor_segments[0]?).map Panel.y
        = some yv :=
  claim10_cross_face_alignment cfgRun 1 0 (by norm_num [cfgRun]) (by norm_num [cfgRun])

end RunPortal
